import Mathlib

/-!
Verification of the dimensional-analysis core of ansys/pyunits.

The development shallowly embeds the Python modules
`ansys/units/dimensions.py`, `ansys/units/systems.py` and
`ansys/units/unit_registry.py`.  Python dictionaries keyed by the
`BaseDimensions` enumeration are embedded as functions
`BaseDimensions → Option ℚ` (`none` = key absent); exponents and factors
are rationals; methods that can raise are embedded as `Except`-valued
functions whose error type mirrors the module's error class.
-/

set_option autoImplicit false

/-- The `BaseDimensions` enumeration: the ten fundamental physical
dimensions, in their canonical declaration order (the order used by
`UnitSystem` and by iteration over the enum).  Modelled from the spec:
`base_dimensions.py` is not part of the sources; the member list and
order are those of §2/§3 of the spec and of the `UnitSystem` properties. -/
inductive BaseDimensions where
  | MASS
  | LENGTH
  | TIME
  | TEMPERATURE
  | TEMPERATURE_DIFFERENCE
  | ANGLE
  | CHEMICAL_AMOUNT
  | LIGHT
  | CURRENT
  | SOLID_ANGLE
deriving DecidableEq, Fintype, Repr

/-- The canonical ordered listing of all `BaseDimensions` members
(Python: `for type in BaseDimensions`). -/
def allBase : List BaseDimensions :=
  [.MASS, .LENGTH, .TIME, .TEMPERATURE, .TEMPERATURE_DIFFERENCE,
   .ANGLE, .CHEMICAL_AMOUNT, .LIGHT, .CURRENT, .SOLID_ANGLE]

/-- A Python dict `{BaseDimensions: exponent, ...}` embedded as a map;
`none` means the key is absent from the dict. -/
def DimMap : Type := BaseDimensions → Option ℚ

instance : DecidableEq DimMap := fun f g =>
  decidable_of_iff (∀ b, f b = g b) ⟨funext, fun h b => congrFun h b⟩

/-- `len` of the embedded dict: the number of present keys. -/
def dimLen (m : DimMap) : Nat :=
  (allBase.filter (fun d => (m d).isSome)).length

/-- `sum(m.values())`: sum of the exponents of all present keys. -/
def dimValuesSum (m : DimMap) : ℚ :=
  (allBase.map (fun d => (m d).getD 0)).sum

/-- The body of `Dimensions.__init__` for a dict whose keys are all
genuine `BaseDimensions` values: copy the dict and delete every entry
whose exponent `== 0` (canonical sparse form). -/
def mkDims (m : DimMap) : DimMap := fun b =>
  match m b with
  | some y => if y = 0 then none else some y
  | none => none

/-- The `Dimensions` class: its only state is the `_dimensions` dict. -/
structure Dimensions where
  _dimensions : DimMap
deriving DecidableEq

/-- `Dimensions` built straight from a key-valid dict via `__init__`. -/
def Dimensions.ofDict (m : DimMap) : Dimensions := ⟨mkDims m⟩

/-- The error class `DimensionsError` with its two classmethod
constructors. -/
inductive DimensionsError where
  | INCORRECT_DIMENSIONS
  | INCOMPARABLE_DIMENSIONS (dim1 dim2 : Dimensions)
deriving DecidableEq

/-- A key of the raw constructor dict: either a genuine `BaseDimensions`
member or some other object (`isinstance` check fails). -/
inductive DictKey where
  | base (b : BaseDimensions)
  | other
deriving DecidableEq

/-- `Dimensions.__init__` on an arbitrary items list (a Python dict's
`.items()`; keys are unique).  It raises `INCORRECT_DIMENSIONS` when some
key is not a `BaseDimensions` member; otherwise it stores the dict with
all zero-exponent entries deleted. -/
def dimensionsInit (l : List (DictKey × ℚ)) : Except DimensionsError Dimensions :=
  if l.all (fun p => match p.1 with | .base _ => true | .other => false) then
    .ok (Dimensions.ofDict (fun b =>
      match l.lookup (DictKey.base b) with
      | some y => some y
      | none => none))
  else
    .error .INCORRECT_DIMENSIONS

/-- The dict `{BaseDimensions.TEMPERATURE: 1.0}` (`temp` in
`_temp_precheck`). -/
def tempDict : DimMap := fun b =>
  if b = .TEMPERATURE then some 1 else none

/-- The dict `{BaseDimensions.TEMPERATURE_DIFFERENCE: 1.0}` (`delta_temp`
in `_temp_precheck`). -/
def deltaTempDict : DimMap := fun b =>
  if b = .TEMPERATURE_DIFFERENCE then some 1 else none

/-- `Dimensions._temp_precheck(self, dims2, op)`: when both dicts have
exactly one entry, a temperature/temperature-difference pair yields
`Dimensions(temp)`, a temperature/temperature pair under `op == "-"`
yields `Dimensions(delta_temp)`; every other path falls off the end of
the method, i.e. returns `None`. -/
def Dimensions.temp_precheck (self : Dimensions) (dims2 : DimMap)
    (op : Option String) : Option Dimensions :=
  let dims1 := self._dimensions
  if dimLen dims1 = 1 ∧ dimLen dims2 = 1 then
    if (dims1 = tempDict ∧ dims2 = deltaTempDict) ∨
       (dims1 = deltaTempDict ∧ dims2 = tempDict) then
      some (Dimensions.ofDict tempDict)
    else if (dims1 = tempDict ∧ dims2 = tempDict) ∧ op = some "-" then
      some (Dimensions.ofDict deltaTempDict)
    else none
  else none

/-- `Dimensions.__add__`: delegates to `_temp_precheck` with no `op`;
the method body contains no raise, so a non-sanctioned operand pair
produces the value `None` (here `none`), not an error. -/
def Dimensions.add (self other : Dimensions) : Option Dimensions :=
  self.temp_precheck other._dimensions none

/-- `Dimensions.__sub__`: delegates to `_temp_precheck` with `op = "-"`;
as with `__add__`, no path raises. -/
def Dimensions.sub (self other : Dimensions) : Option Dimensions :=
  self.temp_precheck other._dimensions (some "-")

/-- `Dimensions.__mul__`: copy `self`'s dict, add `other`'s exponent at
every key `other` holds (inserting keys absent from `self`), and run the
result through the constructor. -/
def Dimensions.mul (self other : Dimensions) : Dimensions :=
  Dimensions.ofDict (fun d =>
    match other._dimensions d with
    | some v =>
      match self._dimensions d with
      | some w => some (w + v)
      | none => some v
    | none => self._dimensions d)

/-- `Dimensions.__truediv__`: copy `self`'s dict, subtract `other`'s
exponent at every key `other` holds (inserting the negation at keys
absent from `self`), and run the result through the constructor. -/
def Dimensions.truediv (self other : Dimensions) : Dimensions :=
  Dimensions.ofDict (fun d =>
    match other._dimensions d with
    | some v =>
      match self._dimensions d with
      | some w => some (w - v)
      | none => some (-v)
    | none => self._dimensions d)

/-- `Dimensions.__pow__`: multiply every present exponent by the given
power and run the result through the constructor. -/
def Dimensions.pow (self : Dimensions) (value : ℚ) : Dimensions :=
  Dimensions.ofDict (fun d => (self._dimensions d).map (fun w => w * value))

/-- `Dimensions.__eq__` as a truth value.  The loop copies `other`'s
dict, subtracts each of `self`'s exponents, and returns `False` as soon
as a key of `self` is missing from `other` (the mutation never changes
which keys are present); after the loop the method returns `True` iff
the remaining values sum to `0`, and otherwise falls through to `None`
(falsy).  `true` below is exactly the `True` return. -/
def Dimensions.eq (self other : Dimensions) : Bool :=
  if ∀ d ∈ allBase, (self._dimensions d).isSome → (other._dimensions d).isSome then
    decide ((allBase.map (fun d =>
      (other._dimensions d).getD 0 - (self._dimensions d).getD 0)).sum = 0)
  else
    false

/-- `Dimensions.__ne__`: `not self.__eq__(other)` (Python negates the
truthiness, so `None` becomes `True`). -/
def Dimensions.ne (self other : Dimensions) : Bool :=
  !(self.eq other)

/-- `Dimensions.__gt__`: raises `INCOMPARABLE_DIMENSIONS` when
`self != other`; otherwise the body falls through, returning `None` —
never a boolean verdict. -/
def Dimensions.gt (self other : Dimensions) :
    Except DimensionsError (Option Bool) :=
  if self.ne other then
    .error (.INCOMPARABLE_DIMENSIONS self other)
  else
    .ok none

/-- `Dimensions.__ge__`: same body as `__gt__`. -/
def Dimensions.ge (self other : Dimensions) :
    Except DimensionsError (Option Bool) :=
  if self.ne other then
    .error (.INCOMPARABLE_DIMENSIONS self other)
  else
    .ok none

/-- `Dimensions.__lt__`: same body as `__gt__`. -/
def Dimensions.lt (self other : Dimensions) :
    Except DimensionsError (Option Bool) :=
  if self.ne other then
    .error (.INCOMPARABLE_DIMENSIONS self other)
  else
    .ok none

/-- `Dimensions.__le__`: same body as `__gt__`. -/
def Dimensions.le (self other : Dimensions) :
    Except DimensionsError (Option Bool) :=
  if self.ne other then
    .error (.INCOMPARABLE_DIMENSIONS self other)
  else
    .ok none

/-- The class invariant established by `__init__`: the stored dict never
holds an entry whose exponent is exactly `0`. -/
def Canonical (a : Dimensions) : Prop :=
  ∀ d, a._dimensions d ≠ some 0

instance (a : Dimensions) : Decidable (Canonical a) := by
  unfold Canonical; infer_instance

/-! ## `systems.py` — `UnitSystem` -/

/-- A fundamental unit as `UnitSystem.__init__` consumes it.  Modelled
from the spec: `unit.py` is not part of the sources; per §4.2/§4.3 a
fundamental `Unit` carries its name and its dimension vector holds a
single base dimension (`unit.dimensions.single_dimension`). -/
structure RUnit where
  name : String
  single_dimension : BaseDimensions
deriving DecidableEq

/-- The error class `UnitSystemError` with its classmethod constructors;
`BASE_UNITS_LENGTH` carries the received length it reports. -/
inductive UnitSystemError where
  | EXCESSIVE_PARAMETERS
  | BASE_UNITS_LENGTH (len : Nat)
  | NOT_FUNDAMENTAL (name : String)
  | UNIT_TYPE (name : String)
  | INVALID_UNIT_SYS (sys : String)
deriving DecidableEq

/-- The state a constructed `UnitSystem` carries: `self._name` and, for
each base dimension `d`, the attribute `self._{d.name}` (absent before
the loop assigns it). -/
structure UnitSystemState where
  _name : Option String
  slots : BaseDimensions → Option RUnit

instance : DecidableEq UnitSystemState := fun a b =>
  decidable_of_iff (a._name = b._name ∧ ∀ d ∈ allBase, a.slots d = b.slots d)
    ⟨fun h => by
      cases a; cases b
      exact congrArg₂ UnitSystemState.mk h.1
        (funext fun d => h.2 d (by cases d <;> simp [allBase])),
     fun h => by cases h; exact ⟨rfl, fun _ _ => rfl⟩⟩

instance {ε α : Type} [DecidableEq ε] [DecidableEq α] : DecidableEq (Except ε α) :=
  fun a b =>
  match a, b with
  | .ok x, .ok y =>
    decidable_of_iff (x = y) ⟨congrArg _, fun h => by injection h⟩
  | .error e, .error f =>
    decidable_of_iff (e = f) ⟨congrArg _, fun h => by injection h⟩
  | .ok _, .error _ => isFalse (fun h => by injection h)
  | .error _, .ok _ => isFalse (fun h => by injection h)

/-- Python truthiness of an optional string (`None` and `""` are falsy). -/
def strTruthy : Option String → Bool
  | none => false
  | some s => !(s = "")

/-- Python truthiness of an optional list (`None` and `[]` are falsy). -/
def listTruthy {α : Type} : Option (List α) → Bool
  | none => false
  | some l => !l.isEmpty

/-- The per-unit loop at the end of `UnitSystem.__init__`: each unit must
name a fundamental unit, and its dimension's attribute slot must still be
empty (`hasattr` guard), after which the unit is assigned to that slot.
The inputs are already `Unit` objects, so the `isinstance` wrapping step
is the identity. -/
def unitSystemAssign (fundamental : List String) :
    UnitSystemState → List RUnit → Except UnitSystemError UnitSystemState
  | st, [] => .ok st
  | st, u :: rest =>
    if u.name ∉ fundamental then
      .error (.NOT_FUNDAMENTAL u.name)
    else if (st.slots u.single_dimension).isSome then
      .error (.UNIT_TYPE u.name)
    else
      unitSystemAssign fundamental
        { st with slots := fun d =>
            if d = u.single_dimension then some u else st.slots d }
        rest

/-- `UnitSystem.__init__`.  `fundamental` embeds the name set of the
`_fundamental_units` table and `unitSystems` the `_unit_systems` table
(both live in `_constants.py`, outside the sources; only their mapping
shape, per spec §6, is used).  The parameter checks, the
length-vs-`len(BaseDimensions)` check, the `"SI"` default and the
known-system lookup follow the source lines in order; note that Python's
`if base_units:` treats an empty list like an absent one. -/
def unitSystemInit (fundamental : List String)
    (unitSystems : List (String × List RUnit))
    (name : Option String) (base_units : Option (List RUnit))
    (unit_sys : Option String) : Except UnitSystemError UnitSystemState :=
  if (strTruthy name && strTruthy unit_sys) ||
     (listTruthy base_units && strTruthy unit_sys) then
    .error .EXCESSIVE_PARAMETERS
  else if listTruthy base_units then
    let bu := base_units.getD []
    if bu.length ≠ allBase.length then
      .error (.BASE_UNITS_LENGTH bu.length)
    else
      unitSystemAssign fundamental ⟨name, fun _ => none⟩ bu
  else
    let us := if strTruthy unit_sys then unit_sys.getD "" else "SI"
    match unitSystems.lookup us with
    | none => .error (.INVALID_UNIT_SYS us)
    | some units => unitSystemAssign fundamental ⟨some us, fun _ => none⟩ units

/-! ## `unit_registry.py` — `register_unit` and `UnitRegistry` -/

/-- One value of the `_derived_units` table: a composition string and a
scaling factor. -/
structure DerivedEntry where
  composition : String
  factor : ℚ
deriving DecidableEq

/-- The error class `UnitAlreadyRegistered`. -/
inductive RegistryError where
  | UnitAlreadyRegistered (name : String)
deriving DecidableEq

/-- Module-level `register_unit(unit, composition, factor)` acting on the
shared tables: raises `UnitAlreadyRegistered` when the name is already a
base or derived unit, otherwise `_derived_units.update` inserts exactly
the new entry (a fresh dict key is appended).  The raise happens before
any write, so on error the table is returned untouched. -/
def register_unit (bases : List String) (derived : List (String × DerivedEntry))
    (unit composition : String) (factor : ℚ) :
    Except RegistryError (List (String × DerivedEntry)) :=
  if unit ∈ bases ∨ (derived.lookup unit).isSome then
    .error (.UnitAlreadyRegistered unit)
  else
    .ok (derived ++ [(unit, ⟨composition, factor⟩)])

/-- `UnitRegistry.__setattr__(name, unit)` acting on the instance's
attribute dict: raises `UnitAlreadyRegistered` when `hasattr(self, name)`
already holds, otherwise binds the unit under the fresh name. -/
def unitRegistrySetattr (attrs : List (String × RUnit)) (name : String)
    (unit : RUnit) : Except RegistryError (List (String × RUnit)) :=
  if (attrs.lookup name).isSome then
    .error (.UnitAlreadyRegistered name)
  else
    .ok (attrs ++ [(name, unit)])

/-! ## Concrete tables for the predefined "SI" system.

Modelled from the spec: `_constants.py` is not part of the sources.  Per
§6 the `unit_systems` table maps each system name to an ordered list of
base-unit names, one per `BaseDimensions` slot in canonical dimension
order, and the `base_units` table declares the fundamental units; the SI
names below are the standard ones the spec's examples use (`kg`, `m`,
`s`, ...). -/

/-- The SI base units, one per dimension slot, in canonical order. -/
def siUnits : List RUnit :=
  [⟨"kg", .MASS⟩, ⟨"m", .LENGTH⟩, ⟨"s", .TIME⟩, ⟨"K", .TEMPERATURE⟩,
   ⟨"delta_K", .TEMPERATURE_DIFFERENCE⟩, ⟨"radian", .ANGLE⟩,
   ⟨"mol", .CHEMICAL_AMOUNT⟩, ⟨"cd", .LIGHT⟩, ⟨"A", .CURRENT⟩,
   ⟨"sr", .SOLID_ANGLE⟩]

/-- The names of the fundamental units (the `_fundamental_units` keys
relevant to the SI system). -/
def siFundamental : List String :=
  siUnits.map RUnit.name

/-- The `_unit_systems` table restricted to its "SI" row. -/
def theUnitSystems : List (String × List RUnit) :=
  [("SI", siUnits)]

/-! ## Concrete values and spec-side definitions used by the theorems -/

/-- A dimensionless `Dimensions` (constructed from an empty dict). -/
def dimensionless : Dimensions := Dimensions.ofDict (fun _ => none)

/-- `Dimensions({BaseDimensions.TEMPERATURE: 1})` — the `T` of the
temperature rule. -/
def temperature1 : Dimensions := Dimensions.ofDict tempDict

/-- `Dimensions({BaseDimensions.TEMPERATURE_DIFFERENCE: 1})` — the `ΔT`
of the temperature rule. -/
def deltaTemp1 : Dimensions := Dimensions.ofDict deltaTempDict

/-- `Dimensions({MASS: 1, LENGTH: -1})`: a vector whose exponents sum to
`0` without being individually `0`. -/
def massPerLen : Dimensions :=
  Dimensions.ofDict (fun d =>
    match d with
    | .MASS => some 1
    | .LENGTH => some (-1)
    | _ => none)

/-- `Dimensions({MASS: 1, TIME: -2})`: a sample composite vector. -/
def massPerTime2 : Dimensions :=
  Dimensions.ofDict (fun d =>
    match d with
    | .MASS => some 1
    | .TIME => some (-2)
    | _ => none)

/-- The spec's *stricter* equality, written from the spec's words for
comparison with the implemented `Dimensions.eq`: for every base dimension
appearing in either operand the exponents cancel to exactly `0`, i.e.
each leftover exponent is individually zero. -/
def specEquals (a b : Dimensions) : Prop :=
  ∀ d, (a._dimensions d).getD 0 = (b._dimensions d).getD 0

instance (a b : Dimensions) : Decidable (specEquals a b) := by
  unfold specEquals; infer_instance

/-- The SI base-unit list with its first two entries transposed: every
unit is fundamental and the ten dimensions are pairwise distinct, but the
list positions no longer follow the canonical dimension order. -/
def siUnitsSwapped : List RUnit :=
  [⟨"m", .LENGTH⟩, ⟨"kg", .MASS⟩, ⟨"s", .TIME⟩, ⟨"K", .TEMPERATURE⟩,
   ⟨"delta_K", .TEMPERATURE_DIFFERENCE⟩, ⟨"radian", .ANGLE⟩,
   ⟨"mol", .CHEMICAL_AMOUNT⟩, ⟨"cd", .LIGHT⟩, ⟨"A", .CURRENT⟩,
   ⟨"sr", .SOLID_ANGLE⟩]

/-- The state `UnitSystem()` reaches when it defaults to the predefined
"SI" system: name `"SI"` and each dimension slot holding that dimension's
unit from the systems table. -/
def siState : UnitSystemState :=
  ⟨some "SI", fun d =>
    match d with
    | .MASS => some ⟨"kg", .MASS⟩
    | .LENGTH => some ⟨"m", .LENGTH⟩
    | .TIME => some ⟨"s", .TIME⟩
    | .TEMPERATURE => some ⟨"K", .TEMPERATURE⟩
    | .TEMPERATURE_DIFFERENCE => some ⟨"delta_K", .TEMPERATURE_DIFFERENCE⟩
    | .ANGLE => some ⟨"radian", .ANGLE⟩
    | .CHEMICAL_AMOUNT => some ⟨"mol", .CHEMICAL_AMOUNT⟩
    | .LIGHT => some ⟨"cd", .LIGHT⟩
    | .CURRENT => some ⟨"A", .CURRENT⟩
    | .SOLID_ANGLE => some ⟨"sr", .SOLID_ANGLE⟩⟩

/-! ## General lemmas -/

theorem mem_allBase (b : BaseDimensions) : b ∈ allBase := by
  cases b <;> simp [allBase]

theorem allBase_length_eq : allBase.length = 10 := rfl

theorem canonical_ofDict (m : DimMap) : Canonical (Dimensions.ofDict m) := by
  intro d
  simp only [Dimensions.ofDict, mkDims]
  cases m d with
  | none => simp
  | some y =>
    by_cases hy : y = 0 <;> simp [hy]

theorem mkDims_tempDict : mkDims tempDict = tempDict := by decide

theorem mkDims_deltaTempDict : mkDims deltaTempDict = deltaTempDict := by decide

theorem dimLen_tempDict : dimLen tempDict = 1 := by decide

theorem dimLen_deltaTempDict : dimLen deltaTempDict = 1 := by decide

theorem tempDict_ne_deltaTempDict : tempDict ≠ deltaTempDict := by decide

/-- `__eq__` is reflexive: the presence guard holds trivially and the
leftover exponents all cancel. -/
theorem dimensions_eq_self (a : Dimensions) : a.eq a = true := by
  rw [Dimensions.eq, if_pos (fun d _ h => h), decide_eq_true_eq]
  apply List.sum_eq_zero
  intro x hx
  obtain ⟨d, _, rfl⟩ := List.mem_map.mp hx
  exact sub_self _

/-! ## C1 — `Dimensions.__eq__` -/

/-- C1 (counterexample): `__eq__` does not implement the stricter
per-entry variant.  The dimensionless vector compared with
`{MASS: 1, LENGTH: -1}` returns `True` — the leftover exponents `1` and
`-1` merely sum to `0` — while under the spec's stricter equality the two
vectors differ. -/
theorem dimensions_eq_not_strict :
    Dimensions.eq dimensionless massPerLen = true ∧
    ¬ specEquals dimensionless massPerLen := by
  constructor
  · rw [Dimensions.eq, if_pos (by decide), decide_eq_true_eq]
    simp [allBase, massPerLen, dimensionless, Dimensions.ofDict, mkDims]
  · decide

/-- C1 (amended): `Dimensions.__eq__(a, b)` returns `True` iff every
base dimension present in `a` is present in `b` and the merged leftover
exponents sum to exactly `0` (the zero-sum variant, not the stricter
each-leftover-zero variant); two independently constructed dimensionless
vectors are equal. -/
theorem dimensions_eq_sum_characterization (a b : Dimensions) :
    (Dimensions.eq a b = true ↔
      ((∀ d, (a._dimensions d).isSome → (b._dimensions d).isSome) ∧
       (allBase.map (fun d =>
         (b._dimensions d).getD 0 - (a._dimensions d).getD 0)).sum = 0))
    ∧ Dimensions.eq dimensionless dimensionless = true := by
  constructor
  · rw [Dimensions.eq]
    split
    · rename_i h
      rw [decide_eq_true_eq]
      exact ⟨fun hs => ⟨fun d hd => h d (mem_allBase d) hd, hs⟩, fun h2 => h2.2⟩
    · rename_i h
      constructor
      · intro hf; cases hf
      · intro h2; exact absurd (fun d _ hd => h2.1 d hd) h
  · exact dimensions_eq_self dimensionless

/-! ## C2 — the temperature rule in `__add__` / `__sub__` -/

/-- C2 (counterexample): `T + T` does not raise — `__add__` returns the
Python value `None` — and `T - ΔT`, a mismatched subtraction outside the
sanctioned list, returns `T` instead of failing. -/
theorem temp_add_temp_returns_none :
    temperature1.add temperature1 = none ∧
    temperature1.sub deltaTemp1 = some temperature1 := by
  constructor <;> rfl

/-- C2 (amended): for the single-dimension vectors `T = {TEMPERATURE: 1}`
and `ΔT = {TEMPERATURE_DIFFERENCE: 1}`, `__add__` yields `T` exactly on
the mixed pairs `T + ΔT` and `ΔT + T` and otherwise returns `None`
(no error is raised); `__sub__` yields `T` on the mixed pairs (in either
order, so `T - ΔT` and `ΔT - T` also yield `T`), yields `ΔT` on `T - T`,
and otherwise returns `None`. -/
theorem temp_add_sub_characterization (a b : Dimensions) :
    (a.add b =
      if (a._dimensions = tempDict ∧ b._dimensions = deltaTempDict) ∨
         (a._dimensions = deltaTempDict ∧ b._dimensions = tempDict)
      then some temperature1 else none)
    ∧ (a.sub b =
      if (a._dimensions = tempDict ∧ b._dimensions = deltaTempDict) ∨
         (a._dimensions = deltaTempDict ∧ b._dimensions = tempDict)
      then some temperature1
      else if a._dimensions = tempDict ∧ b._dimensions = tempDict
      then some deltaTemp1 else none) := by
  rcases a with ⟨A⟩; rcases b with ⟨B⟩
  simp only [Dimensions.add, Dimensions.sub, Dimensions.temp_precheck]
  by_cases hmix : (A = tempDict ∧ B = deltaTempDict) ∨ (A = deltaTempDict ∧ B = tempDict)
  · have hlen : dimLen A = 1 ∧ dimLen B = 1 := by
      rcases hmix with ⟨rfl, rfl⟩ | ⟨rfl, rfl⟩ <;>
        simp [dimLen_tempDict, dimLen_deltaTempDict]
    simp [hlen, hmix, temperature1]
  · by_cases htt : A = tempDict ∧ B = tempDict
    · rcases htt with ⟨rfl, rfl⟩
      simp [dimLen_tempDict, hmix, deltaTemp1, temperature1, tempDict_ne_deltaTempDict]
    · simp [hmix, htt]

/-! ## C3 — multiply/divide round-trip -/

/-- C3: for every two `Dimensions` (the constructor invariant `Canonical`
always holds of real instances), multiplying by `b` and then dividing by
`b` returns exactly `a` — and in particular a vector `__eq__` to `a`. -/
theorem dimensions_mul_div_roundtrip (a b : Dimensions) (ha : Canonical a) :
    (a.mul b).truediv b = a ∧ ((a.mul b).truediv b).eq a = true := by
  have main : (a.mul b).truediv b = a := by
    rcases a with ⟨A⟩; rcases b with ⟨B⟩
    have haD : ∀ d, A d ≠ some 0 := ha
    simp only [Dimensions.mul, Dimensions.truediv, Dimensions.ofDict]
    congr 1
    funext d
    simp only [mkDims]
    cases hB : B d with
    | none =>
      cases hA : A d with
      | none => rfl
      | some w =>
        have hw : w ≠ 0 := fun h => haD d (by rw [hA, h])
        simp [hw]
    | some v =>
      cases hA : A d with
      | none =>
        by_cases hv : v = 0
        · subst hv; simp
        · simp [hv, sub_self]
      | some w =>
        have hw : w ≠ 0 := fun h => haD d (by rw [hA, h])
        by_cases hwv : w + v = 0
        · have : -v = w := by linarith
          simp [hwv, this, hw]
        · simp [hwv, add_sub_cancel_right, hw]
  exact ⟨main, by rw [main]; exact dimensions_eq_self a⟩

/-- C3 (witness): the round-trip at `{MASS: 1, LENGTH: -1}` and
`{MASS: 1, TIME: -2}`. -/
theorem dimensions_mul_div_roundtrip_witness :
    (massPerLen.mul massPerTime2).truediv massPerTime2 = massPerLen :=
  (dimensions_mul_div_roundtrip massPerLen massPerTime2 (by decide)).1

/-! ## C5 — ordering comparisons -/

/-- C5: each of `__gt__`, `__ge__`, `__lt__`, `__le__` raises the
`INCOMPARABLE_DIMENSIONS` error exactly when the operands are not
dimensionally equal (`__eq__` falsy), and otherwise returns `None` —
never a boolean ordering verdict. -/
theorem dimensions_ordering_incomparable (a b : Dimensions) :
    a.gt b = (if a.eq b then Except.ok none
              else .error (.INCOMPARABLE_DIMENSIONS a b))
    ∧ a.ge b = (if a.eq b then Except.ok none
              else .error (.INCOMPARABLE_DIMENSIONS a b))
    ∧ a.lt b = (if a.eq b then Except.ok none
              else .error (.INCOMPARABLE_DIMENSIONS a b))
    ∧ a.le b = (if a.eq b then Except.ok none
              else .error (.INCOMPARABLE_DIMENSIONS a b)) := by
  unfold Dimensions.gt Dimensions.ge Dimensions.lt Dimensions.le Dimensions.ne
  cases h : a.eq b <;> simp [h]

/-! ## C9 — constructor validation and the canonical-sparse invariant -/

/-- C9: `Dimensions.__init__` raises `INCORRECT_DIMENSIONS` whenever some
key of the input dict is not a `BaseDimensions` member; otherwise the
constructed vector retains no entry with exponent exactly `0`; and the
invariant is preserved by `__mul__`, `__truediv__` and `__pow__` since
each routes its result through the constructor. -/
theorem dimensions_init_invariants :
    (∀ l : List (DictKey × ℚ), (∃ p ∈ l, p.1 = DictKey.other) →
      dimensionsInit l = .error .INCORRECT_DIMENSIONS)
    ∧ (∀ (l : List (DictKey × ℚ)) (d : Dimensions),
      dimensionsInit l = .ok d → Canonical d)
    ∧ (∀ a b : Dimensions, Canonical (a.mul b) ∧ Canonical (a.truediv b))
    ∧ (∀ (a : Dimensions) (n : ℚ), Canonical (a.pow n)) := by
  refine ⟨?_, ?_, fun a b => ⟨canonical_ofDict _, canonical_ofDict _⟩,
    fun a n => canonical_ofDict _⟩
  · rintro l ⟨p, hp, hother⟩
    rw [dimensionsInit, if_neg]
    intro hall
    have := List.all_eq_true.mp hall p hp
    rw [hother] at this
    cases this
  · intro l d h
    rw [dimensionsInit] at h
    split at h
    · injection h with h'
      rw [← h']
      exact canonical_ofDict _
    · cases h

/-- C9 (witness): a dict with a non-`BaseDimensions` key raises; the
product of two concrete vectors is canonical. -/
theorem dimensions_init_invariants_witness :
    dimensionsInit [(DictKey.other, 1)] = .error .INCORRECT_DIMENSIONS
    ∧ Canonical (massPerLen.mul massPerTime2) :=
  ⟨dimensions_init_invariants.1 [(DictKey.other, 1)]
      ⟨(DictKey.other, 1), by simp, rfl⟩,
   (dimensions_init_invariants.2.2.1 massPerLen massPerTime2).1⟩

/-! ## `UnitSystem` lemmas -/

/-- The assignment loop of `UnitSystem.__init__` succeeds on any list of
fundamental units whose dimensions are pairwise distinct and still
unassigned, and it keys each unit by its own `single_dimension` —
regardless of the list's order. -/
theorem unitSystemAssign_total (fundamental : List String) :
    ∀ (units : List RUnit) (st : UnitSystemState),
      (∀ u ∈ units, u.name ∈ fundamental) →
      units.Pairwise (fun u v => u.single_dimension ≠ v.single_dimension) →
      (∀ u ∈ units, st.slots u.single_dimension = none) →
      ∃ st', unitSystemAssign fundamental st units = .ok st' ∧
        st'._name = st._name ∧
        (∀ u ∈ units, st'.slots u.single_dimension = some u) ∧
        (∀ d, (∀ u ∈ units, u.single_dimension ≠ d) → st'.slots d = st.slots d) := by
  intro units
  induction units with
  | nil =>
    intro st _ _ _
    exact ⟨st, rfl, rfl, by simp, fun d _ => rfl⟩
  | cons u rest ih =>
    intro st hfund hpw hempty
    have hu : u.name ∈ fundamental := hfund u (List.mem_cons_self u rest)
    have hslot : st.slots u.single_dimension = none :=
      hempty u (List.mem_cons_self u rest)
    rw [unitSystemAssign, if_neg (not_not_intro hu), if_neg (by simp [hslot])]
    obtain ⟨hpw1, hpw2⟩ := List.pairwise_cons.mp hpw
    obtain ⟨st', h1, h2, h3, h4⟩ := ih
      { st with slots := fun d =>
          if d = u.single_dimension then some u else st.slots d }
      (fun v hv => hfund v (List.mem_cons_of_mem u hv)) hpw2
      (fun v hv => by
        have hvu : v.single_dimension ≠ u.single_dimension := Ne.symm (hpw1 v hv)
        show (if v.single_dimension = u.single_dimension then some u
              else st.slots v.single_dimension) = none
        rw [if_neg hvu]
        exact hempty v (List.mem_cons_of_mem u hv))
    refine ⟨st', h1, h2, ?_, ?_⟩
    · intro v hv
      rcases List.mem_cons.mp hv with rfl | hv'
      · have hrest := h4 v.single_dimension (fun w hw => Ne.symm (hpw1 w hw))
        rw [hrest]
        simp
      · exact h3 v hv'
    · intro d hd
      have hrest := h4 d (fun w hw => hd w (List.mem_cons_of_mem u hw))
      rw [hrest]
      have hud : u.single_dimension ≠ d := hd u (List.mem_cons_self u rest)
      show (if d = u.single_dimension then some u else st.slots d) = st.slots d
      rw [if_neg (Ne.symm hud)]

/-- The assignment loop never produces a `BASE_UNITS_LENGTH` error. -/
theorem unitSystemAssign_no_length_error (fundamental : List String) :
    ∀ (units : List RUnit) (st : UnitSystemState) (n : Nat),
      unitSystemAssign fundamental st units ≠ .error (.BASE_UNITS_LENGTH n) := by
  intro units
  induction units with
  | nil => intro st n h; cases h
  | cons u rest ih =>
    intro st n
    rw [unitSystemAssign]
    split
    · intro h; cases h
    · split
      · intro h; cases h
      · exact ih _ n

/-! ## C4 — base-unit list order in `UnitSystem.__init__` -/

/-- C4 (counterexample): the SI list with its first two units transposed
— so both sit at positions whose canonical dimension differs from their
own — is accepted by `UnitSystem.__init__` instead of failing. -/
theorem unitSystem_out_of_order_accepted :
    (unitSystemInit siFundamental theUnitSystems (some "custom")
      (some siUnitsSwapped) none).isOk = true := by decide

/-- C4 (amended): `UnitSystem.__init__` performs no positional check
against the canonical dimension order.  Any ten-element list of
fundamental units with pairwise-distinct dimensions is accepted, in any
order, and each unit is assigned to the slot of its own single dimension
(duplicated dimensions, not misplacement, are what the loop rejects). -/
theorem unitSystem_accepts_any_order (fundamental : List String)
    (ust : List (String × List RUnit)) (name : Option String)
    (bu : List RUnit)
    (hlen : bu.length = allBase.length)
    (hfund : ∀ u ∈ bu, u.name ∈ fundamental)
    (hdist : bu.Pairwise (fun u v => u.single_dimension ≠ v.single_dimension)) :
    ∃ st, unitSystemInit fundamental ust name (some bu) none = .ok st ∧
      st._name = name ∧ ∀ u ∈ bu, st.slots u.single_dimension = some u := by
  have hne : bu ≠ [] := by
    intro h
    rw [h] at hlen
    cases hlen
  rw [unitSystemInit]
  rw [if_neg (by simp [strTruthy])]
  rw [if_pos (by simp [listTruthy, hne])]
  simp only [Option.getD_some]
  rw [if_neg (not_not_intro hlen)]
  obtain ⟨st', h1, h2, h3, _⟩ :=
    unitSystemAssign_total fundamental bu ⟨name, fun _ => none⟩ hfund hdist
      (fun _ _ => rfl)
  exact ⟨st', h1, h2, h3⟩

/-- C4 (witness): the amended statement at the transposed SI list. -/
theorem unitSystem_accepts_any_order_witness :
    ∃ st, unitSystemInit siFundamental theUnitSystems (some "custom")
        (some siUnitsSwapped) none = .ok st ∧
      st._name = some "custom" ∧
      ∀ u ∈ siUnitsSwapped, st.slots u.single_dimension = some u :=
  unitSystem_accepts_any_order siFundamental theUnitSystems (some "custom")
    siUnitsSwapped (by decide) (by decide) (by decide)

/-! ## C7 — base-unit list length check -/

/-- C7 (counterexample): an explicit `base_units` list of length `0` — a
length different from the ten `BaseDimensions` slots — does not fail with
a length-mismatch error: Python's `if base_units:` treats the empty list
as absent, and construction silently proceeds to the default "SI"
system. -/
theorem unitSystem_empty_base_units_defaults_si :
    unitSystemInit siFundamental theUnitSystems none (some []) none ≠
      .error (.BASE_UNITS_LENGTH 0)
    ∧ unitSystemInit siFundamental theUnitSystems none (some []) none =
      .ok siState := by
  constructor
  · decide
  · decide

/-- C7 (amended): a *non-empty* explicit `base_units` list whose length
differs from the number of `BaseDimensions` slots fails with
`BASE_UNITS_LENGTH` naming the received count, and when the length is
exactly the slot count that error can never be raised; an empty list is
falsy and is handled as if `base_units` had not been supplied. -/
theorem unitSystem_base_units_length (fundamental : List String)
    (ust : List (String × List RUnit)) (name : Option String)
    (bu : List RUnit) :
    (bu ≠ [] → bu.length ≠ allBase.length →
      unitSystemInit fundamental ust name (some bu) none =
        .error (.BASE_UNITS_LENGTH bu.length))
    ∧ (bu.length = allBase.length →
      ∀ n, unitSystemInit fundamental ust name (some bu) none ≠
        .error (.BASE_UNITS_LENGTH n)) := by
  constructor
  · intro hne hlen
    rw [unitSystemInit]
    rw [if_neg (by simp [strTruthy])]
    rw [if_pos (by simp [listTruthy, hne])]
    simp only [Option.getD_some]
    rw [if_pos hlen]
  · intro hlen n
    rw [unitSystemInit]
    rw [if_neg (by simp [strTruthy])]
    have hne : bu ≠ [] := by
      intro h
      rw [h] at hlen
      cases hlen
    rw [if_pos (by simp [listTruthy, hne])]
    simp only [Option.getD_some]
    rw [if_neg (not_not_intro hlen)]
    exact unitSystemAssign_no_length_error fundamental bu _ n

/-- C7 (witness): the length check at the eight-element prefix of the SI
list, reporting the received count `8`. -/
theorem unitSystem_base_units_length_witness :
    unitSystemInit siFundamental theUnitSystems none
      (some (siUnits.take 8)) none = .error (.BASE_UNITS_LENGTH 8) :=
  (unitSystem_base_units_length siFundamental theUnitSystems none
    (siUnits.take 8)).1 (by decide) (by decide)

/-! ## C10 — defaulting to the predefined "SI" system -/

/-- C10: constructing a `UnitSystem` with neither `base_units` nor
`unit_sys` does not fail: `unit_sys` silently defaults to `"SI"`, the
name becomes `"SI"`, and every dimension slot is filled with that
dimension's unit from the known-systems table. -/
theorem unitSystem_default_si :
    unitSystemInit siFundamental theUnitSystems none none none =
      .ok siState
    ∧ siState._name = some "SI"
    ∧ siState.slots .MASS = some ⟨"kg", .MASS⟩
    ∧ siState.slots .LENGTH = some ⟨"m", .LENGTH⟩
    ∧ siState.slots .TIME = some ⟨"s", .TIME⟩
    ∧ siState.slots .TEMPERATURE = some ⟨"K", .TEMPERATURE⟩
    ∧ siState.slots .TEMPERATURE_DIFFERENCE =
        some ⟨"delta_K", .TEMPERATURE_DIFFERENCE⟩
    ∧ siState.slots .ANGLE = some ⟨"radian", .ANGLE⟩
    ∧ siState.slots .CHEMICAL_AMOUNT = some ⟨"mol", .CHEMICAL_AMOUNT⟩
    ∧ siState.slots .LIGHT = some ⟨"cd", .LIGHT⟩
    ∧ siState.slots .CURRENT = some ⟨"A", .CURRENT⟩
    ∧ siState.slots .SOLID_ANGLE = some ⟨"sr", .SOLID_ANGLE⟩ := by
  refine ⟨by decide, rfl, rfl, rfl, rfl, rfl, rfl, rfl, rfl, rfl, rfl, rfl⟩

/-! ## Registry lookup helpers -/

theorem lookup_append_of_none {α β : Type} [BEq α]
    (l1 l2 : List (α × β)) (k : α) (h : l1.lookup k = none) :
    (l1 ++ l2).lookup k = l2.lookup k := by
  induction l1 with
  | nil => rfl
  | cons p rest ih =>
    rcases p with ⟨k', v⟩
    rw [List.cons_append]
    cases hk : k == k' with
    | true =>
      rw [List.lookup, hk] at h
      cases h
    | false =>
      rw [List.lookup, hk] at h
      rw [List.lookup, hk]
      exact ih h

theorem lookup_append_singleton_self {α β : Type} [BEq α] [LawfulBEq α]
    (l : List (α × β)) (u : α) (e : β) (h : l.lookup u = none) :
    (l ++ [(u, e)]).lookup u = some e := by
  rw [lookup_append_of_none l [(u, e)] u h, List.lookup]
  simp

theorem lookup_append_singleton_ne {α β : Type} [BEq α] [LawfulBEq α]
    (l : List (α × β)) (u v : α) (e : β) (h : v ≠ u) :
    (l ++ [(u, e)]).lookup v = l.lookup v := by
  have hvu : (v == u) = false := by simp [h]
  induction l with
  | nil =>
    simp [List.lookup, hvu]
  | cons p rest ih =>
    rcases p with ⟨k', w⟩
    rw [List.cons_append]
    cases hk : v == k' with
    | true =>
      rw [List.lookup, hk, List.lookup, hk]
    | false =>
      rw [List.lookup, hk, List.lookup, hk]
      exact ih

/-! ## C6 — module-level `register_unit` -/

/-- C6: `register_unit(name, composition, factor)` fails with
`UnitAlreadyRegistered` — before any write, leaving the derived-units
table untouched — exactly when the name already exists among the base or
derived units; otherwise it inserts exactly the entry
`{name: {composition, factor}}`: the new name maps to the new entry and
every other name's lookup is unchanged. -/
theorem register_unit_collision_or_insert (bases : List String)
    (derived : List (String × DerivedEntry)) (u c : String) (f : ℚ) :
    ((u ∈ bases ∨ (derived.lookup u).isSome) →
      register_unit bases derived u c f = .error (.UnitAlreadyRegistered u))
    ∧ (u ∉ bases → derived.lookup u = none →
      register_unit bases derived u c f =
        .ok (derived ++ [(u, DerivedEntry.mk c f)])
      ∧ (derived ++ [(u, DerivedEntry.mk c f)]).lookup u =
        some (DerivedEntry.mk c f)
      ∧ ∀ v, v ≠ u →
        (derived ++ [(u, DerivedEntry.mk c f)]).lookup v = derived.lookup v) := by
  constructor
  · intro h
    rw [register_unit, if_pos h]
  · intro hb hd
    refine ⟨?_, lookup_append_singleton_self derived u _ hd,
      fun v hv => lookup_append_singleton_ne derived u v _ hv⟩
    rw [register_unit, if_neg]
    rintro (h | h)
    · exact hb h
    · rw [hd] at h; cases h

/-- C6 (witness): registering `Q = N m` into a table already holding `N`
succeeds with exactly the new entry appended; re-registering `N`
collides. -/
theorem register_unit_collision_or_insert_witness :
    register_unit ["kg", "m", "s"] [("N", DerivedEntry.mk "kg m s^-2" 1)] "Q" "N m" 1 =
      .ok [("N", ⟨"kg m s^-2", 1⟩), ("Q", DerivedEntry.mk "N m" 1)]
    ∧ register_unit ["kg", "m", "s"] [("N", DerivedEntry.mk "kg m s^-2" 1)] "N" "x" 1 =
      .error (.UnitAlreadyRegistered "N") := by
  constructor
  · exact ((register_unit_collision_or_insert ["kg", "m", "s"]
      [("N", DerivedEntry.mk "kg m s^-2" 1)] "Q" "N m" 1).2 (by decide) (by decide)).1
  · exact (register_unit_collision_or_insert ["kg", "m", "s"]
      [("N", DerivedEntry.mk "kg m s^-2" 1)] "N" "x" 1).1 (Or.inr (by decide))

/-! ## C8 — `UnitRegistry.__setattr__` collision guard -/

/-- C8: on a single `UnitRegistry` instance, `__setattr__` fails with
`UnitAlreadyRegistered` — leaving the existing binding unchanged — when
the name is already bound on the instance, and under a fresh name it
succeeds, binding exactly that unit while every other binding's lookup
is unchanged. -/
theorem unitRegistry_setattr_guard (attrs : List (String × RUnit))
    (n : String) (u : RUnit) :
    ((attrs.lookup n).isSome →
      unitRegistrySetattr attrs n u = .error (.UnitAlreadyRegistered n))
    ∧ (attrs.lookup n = none →
      unitRegistrySetattr attrs n u = .ok (attrs ++ [(n, u)])
      ∧ (attrs ++ [(n, u)]).lookup n = some u
      ∧ ∀ v, v ≠ n → (attrs ++ [(n, u)]).lookup v = attrs.lookup v) := by
  constructor
  · intro h
    rw [unitRegistrySetattr, if_pos h]
  · intro hn
    refine ⟨?_, lookup_append_singleton_self attrs n u hn,
      fun v hv => lookup_append_singleton_ne attrs n v u hv⟩
    rw [unitRegistrySetattr, if_neg]
    rw [hn]
    simp

/-- C8 (witness): on an instance holding `kg`, binding `foot_per_sec`
succeeds and rebinding `kg` collides. -/
theorem unitRegistry_setattr_guard_witness :
    unitRegistrySetattr [("kg", ⟨"kg", .MASS⟩)] "foot_per_sec"
      ⟨"ft s^-1", .LENGTH⟩ =
      .ok [("kg", ⟨"kg", .MASS⟩), ("foot_per_sec", ⟨"ft s^-1", .LENGTH⟩)]
    ∧ unitRegistrySetattr [("kg", ⟨"kg", .MASS⟩)] "kg" ⟨"kg", .MASS⟩ =
      .error (.UnitAlreadyRegistered "kg") := by
  constructor
  · exact ((unitRegistry_setattr_guard [("kg", ⟨"kg", .MASS⟩)] "foot_per_sec"
      ⟨"ft s^-1", .LENGTH⟩).2 (by decide)).1
  · exact (unitRegistry_setattr_guard [("kg", ⟨"kg", .MASS⟩)] "kg"
      ⟨"kg", .MASS⟩).1 (by decide)
